import Mathlib

/-!
Verification of the incremental stock-data pipeline (`main.py`).

The pipeline fetches historical price rows and per-ticker profile rows,
filters them against the warehouse state (max stored date per ticker for
prices, set of already-profiled tickers for profiles) and appends only the
new rows.  The embedding below models pandas DataFrames as lists of rows,
the Snowflake tables as lists held in a `Warehouse` record, and the
threaded profile collector as a fold over the futures' completion order.
-/

namespace StocksDbt

/-- One row of the normalized price table produced by `yf_data.price_data`:
columns TICKER, DATE, OPEN, HIGH, LOW, CLOSE, ADJ_CLOSE, VOLUME.  Dates are
day ordinals; prices are fixed-precision integers. -/
structure PriceRow where
  ticker : String
  date : Nat
  «open» : Int
  high : Int
  low : Int
  close : Int
  adj_close : Int
  volume : Int
deriving DecidableEq, Repr

/-- The (ticker, date) identity of a price row. -/
def priceKey (r : PriceRow) : String × Nat := (r.ticker, r.date)

/-- A row of `df.merge(right=filter_df, on='TICKER', how='left')`
(`main.py` lines 159-163): the fetched row together with the joined-in
MAX_DATE column, which is `none` (NaN) when the ticker had no match in
`filter_df`. -/
structure MergedRow where
  row : PriceRow
  max_date : Option Nat
deriving DecidableEq, Repr

/-- The rows of the high-water-mark table whose TICKER equals `t`
(the matches of one left-join probe). -/
def rowMatches : List (String × Nat) → String → List (String × Nat)
  | [], _ => []
  | p :: ps, t => if p.1 = t then p :: rowMatches ps t else rowMatches ps t

/-- Left-join one fetched row onto the high-water-mark table: every match
contributes a merged row; no match contributes a single row with NaN
MAX_DATE (pandas `how='left'`). -/
def joinRow (filter_df : List (String × Nat)) (r : PriceRow) : List MergedRow :=
  match rowMatches filter_df r.ticker with
  | [] => [⟨r, none⟩]
  | ms => ms.map (fun p => ⟨r, some p.2⟩)

/-- `df.merge(right=filter_df, on='TICKER', how='left')` over the whole
fetched table (`main.py` lines 159-163). -/
def leftJoin (df : List PriceRow) (filter_df : List (String × Nat)) : List MergedRow :=
  match df with
  | [] => []
  | r :: rs => joinRow filter_df r ++ leftJoin rs filter_df

/-- The predicate of `main.py` line 165:
`(merged['DATE'] > merged['MAX_DATE']) | (merged['MAX_DATE'].isna())`.
A comparison against NaN is false, so the row survives iff MAX_DATE is
absent or DATE is strictly greater. -/
def keepRow (m : MergedRow) : Bool :=
  match m.max_date with
  | none => true
  | some d => decide (d < m.row.date)

/-- `merged.drop(columns='MAX_DATE')` (`main.py` line 166): the drop removes
the joined-in MAX_DATE column; the TICKER column (the join key) stays. -/
def dropMaxDate (m : MergedRow) : PriceRow := m.row

/-- The incremental price filter of `pipeline.load_price_data`
(`main.py` lines 159-166): left join on TICKER, predicate filter, drop of
the MAX_DATE column. -/
def priceFilter (df : List PriceRow) (filter_df : List (String × Nat)) : List PriceRow :=
  ((leftJoin df filter_df).filter keepRow).map dropMaxDate

/-- Look a ticker up in the high-water-mark table (first matching row). -/
def hwmLookup : List (String × Nat) → String → Option Nat
  | [], _ => none
  | p :: ps, t => if p.1 = t then some p.2 else hwmLookup ps t

/-- The incremental-filter contract of spec §4.3, stated directly per row:
keep the row iff its ticker has no high-water mark or its date is strictly
greater than the stored max date. -/
def rowKeep (filter_df : List (String × Nat)) (r : PriceRow) : Bool :=
  match hwmLookup filter_df r.ticker with
  | none => true
  | some d => decide (d < r.date)

/-- The spec-worded form of the incremental price filter (§4.3 contract):
a per-row filter of the fetched table, with no join and no column drop. -/
def priceFilterSpec (df : List PriceRow) (filter_df : List (String × Nat)) : List PriceRow :=
  df.filter (rowKeep filter_df)

lemma rowMatches_eq_nil_of_not_mem {filter_df : List (String × Nat)} {t : String}
    (h : t ∉ filter_df.map Prod.fst) : rowMatches filter_df t = [] := by
  induction filter_df with
  | nil => rfl
  | cons p ps ih =>
    simp only [List.map_cons, List.mem_cons, not_or] at h
    rw [rowMatches, if_neg (fun hh => h.1 hh.symm)]
    exact ih h.2

lemma hwmLookup_eq_none_of_not_mem {filter_df : List (String × Nat)} {t : String}
    (h : t ∉ filter_df.map Prod.fst) : hwmLookup filter_df t = none := by
  induction filter_df with
  | nil => rfl
  | cons p ps ih =>
    simp only [List.map_cons, List.mem_cons, not_or] at h
    rw [hwmLookup, if_neg (fun hh => h.1 hh.symm)]
    exact ih h.2

/-- With unique tickers in the high-water-mark table, the join's matches for
a ticker are exactly what `hwmLookup` reports. -/
lemma rowMatches_eq_lookup {filter_df : List (String × Nat)} (t : String)
    (h : (filter_df.map Prod.fst).Nodup) :
    rowMatches filter_df t =
      match hwmLookup filter_df t with
      | none => []
      | some d => [(t, d)] := by
  induction filter_df with
  | nil => rfl
  | cons p ps ih =>
    simp only [List.map_cons, List.nodup_cons] at h
    by_cases hpt : p.1 = t
    · have hnm : t ∉ ps.map Prod.fst := hpt ▸ h.1
      rw [rowMatches, if_pos hpt, hwmLookup, if_pos hpt,
        rowMatches_eq_nil_of_not_mem hnm]
      cases p with
      | mk a b => simp_all
    · rw [rowMatches, if_neg hpt, hwmLookup, if_neg hpt]
      exact ih h.2

/-- With unique tickers in the high-water-mark table, joining one fetched
row yields a single merged row carrying the looked-up max date. -/
lemma joinRow_eq_lookup {filter_df : List (String × Nat)} (r : PriceRow)
    (h : (filter_df.map Prod.fst).Nodup) :
    joinRow filter_df r = [⟨r, hwmLookup filter_df r.ticker⟩] := by
  unfold joinRow
  rw [rowMatches_eq_lookup r.ticker h]
  cases hwmLookup filter_df r.ticker with
  | none => rfl
  | some d => rfl

/-- With unique tickers in the high-water-mark table, the staged
join-filter-drop pipeline computes the per-row contract filter. -/
lemma priceFilter_eq_filter (df : List PriceRow) (filter_df : List (String × Nat))
    (h : (filter_df.map Prod.fst).Nodup) :
    priceFilter df filter_df = df.filter (rowKeep filter_df) := by
  induction df with
  | nil => rfl
  | cons r rs ih =>
    have hstep : priceFilter (r :: rs) filter_df =
        ((joinRow filter_df r).filter keepRow).map dropMaxDate ++ priceFilter rs filter_df := by
      simp [priceFilter, leftJoin, List.filter_append]
    rw [hstep, ih, joinRow_eq_lookup r h]
    have hkeq : keepRow ⟨r, hwmLookup filter_df r.ticker⟩ = rowKeep filter_df r := rfl
    cases hk : rowKeep filter_df r with
    | true => simp [List.filter_cons, hkeq, hk, dropMaxDate]
    | false => simp [List.filter_cons, hkeq, hk]

/-- One row of the profile table built by `yf_data.threaded_profiling`:
columns TICKER, COMPANY_NAME, INDUSTRY, SECTOR, COUNTRY, CLASS, MARKET_CAP. -/
structure ProfileRow where
  ticker : String
  company_name : String
  industry : String
  sector : String
  country : String
  quote_class : String
  market_cap : Option Int
deriving DecidableEq, Repr

/-- Python's `str.upper()`: upper-case every character of the string. -/
def strUpper (s : String) : String := ⟨s.data.map Char.toUpper⟩

/-- The predicate of `main.py` line 195:
`~df["TICKER"].str.upper().isin(existing_tickers)`, where `existing_tickers`
is the upper-cased set of tickers already profiled (`main.py` line 194). -/
def profileKeep (existing : List String) (r : ProfileRow) : Bool :=
  !((existing.map strUpper).contains (strUpper r.ticker))

/-- The incremental profile filter of `pipeline.load_ticker_profiles`
(`main.py` lines 193-195): keep only fetched rows whose upper-cased ticker
is not among the upper-cased existing tickers. -/
def profileFilter (df : List ProfileRow) (existing : List String) : List ProfileRow :=
  df.filter (profileKeep existing)

/-- The warehouse state: the `TICKER_DATA` price table and the
`TICKER_PROFILES` profile table. -/
structure Warehouse where
  ticker_data : List PriceRow
  ticker_profiles : List ProfileRow
deriving DecidableEq, Repr

/-- The stored dates of one ticker in the price table. -/
def tickerDates (tbl : List PriceRow) (t : String) : List Nat :=
  (tbl.filter (fun r => r.ticker == t)).map PriceRow.date

/-- `pipeline.date_checker` (`main.py` lines 119-144):
`SELECT ticker, MAX(date) ... WHERE ticker IN (tickers) GROUP BY ticker`,
one row per distinct stored ticker that is in the requested list. -/
def date_checker (tickers : List String) (tbl : List PriceRow) : List (String × Nat) :=
  (((tbl.map PriceRow.ticker).dedup).filter (fun t => tickers.contains t)).map
    (fun t => (t, (tickerDates tbl t).foldl max 0))

/-- `merged.groupby('TICKER').size()` (`main.py` line 176): the number of
loaded rows per ticker. -/
def tickerCounts (l : List PriceRow) : List (String × Nat) :=
  ((l.map PriceRow.ticker).dedup).map
    (fun t => (t, (l.filter (fun r => r.ticker == t)).length))

/-- `pipeline.load_price_data` (`main.py` lines 146-181): filter the fetched
rows against the high-water marks; when any row survives, append them to
`TICKER_DATA` (`write_pandas`) and return the per-ticker counts; otherwise
touch nothing, print "No valid rows to ingest" and return `None`. -/
def load_price_data (tickers : List String) (fetched : List PriceRow) (w : Warehouse) :
    Warehouse × Option (List (String × Nat)) :=
  let filter_df := date_checker tickers w.ticker_data
  let merged := priceFilter fetched filter_df
  if 0 < merged.length then
    ({ w with ticker_data := w.ticker_data ++ merged }, some (tickerCounts merged))
  else
    (w, none)

/-- `pipeline.load_ticker_profiles` (`main.py` lines 183-208): filter the
fetched profiles against the tickers already stored; when any row survives,
append them to `TICKER_PROFILES` and return how many; otherwise return 0. -/
def load_ticker_profiles (fetched : List ProfileRow) (w : Warehouse) : Warehouse × Nat :=
  let existing := w.ticker_profiles.map ProfileRow.ticker
  let df := profileFilter fetched existing
  if 0 < df.length then
    ({ w with ticker_profiles := w.ticker_profiles ++ df }, df.length)
  else
    (w, 0)

/-- A value of the provider's `info` dictionary (string or numeric). -/
inductive InfoVal where
  | str (s : String)
  | num (n : Int)
deriving DecidableEq, Repr

/-- Python's `dict.get(key, default)` on the provider's `info` mapping:
the stored value when the key is present, the supplied default otherwise. -/
def dictGet (info : String → Option InfoVal) (k : String) (dflt : Option InfoVal) :
    Option InfoVal :=
  match info k with
  | some v => some v
  | none => dflt

/-- The raw record returned by `yf_data.profile_data`: each field is the
result of a `dict.get`, hence possibly `None`. -/
structure RawProfile where
  ticker : Option InfoVal
  company_name : Option InfoVal
  industry : Option InfoVal
  sector : Option InfoVal
  country : Option InfoVal
  quote_class : Option InfoVal
  market_cap : Option InfoVal
deriving DecidableEq, Repr

/-- `yf_data.profile_data` (`main.py` lines 48-71): TICKER and COMPANY_NAME
come from `info.get("symbol")` / `info.get("longName")` with no default
(so `None` when absent); INDUSTRY, SECTOR, COUNTRY and CLASS default to
"Unavailable"; MARKET_CAP defaults to `None`. -/
def profile_data (info : String → Option InfoVal) : RawProfile :=
  { ticker := dictGet info "symbol" none,
    company_name := dictGet info "longName" none,
    industry := dictGet info "industry" (some (.str "Unavailable")),
    sector := dictGet info "sector" (some (.str "Unavailable")),
    country := dictGet info "country" (some (.str "Unavailable")),
    quote_class := dictGet info "quoteType" (some (.str "Unavailable")),
    market_cap := dictGet info "marketCap" none }

/-- One worker's task in the pool (`main.py` line 83): fetch
`yf.Ticker(t).info` — abstracted as `getInfo`, which may raise — and build
the profile record from it. -/
def runWorker (getInfo : String → Except String (String → Option InfoVal)) (t : String) :
    Except String RawProfile :=
  (getInfo t).map profile_data

/-- The `as_completed` loop of `yf_data.threaded_profiling` (`main.py`
lines 84-85): append each completed future's `result()` in completion
order; a failed future's `result()` re-raises the worker's exception,
abandoning the rows collected so far. -/
def collectResults (getInfo : String → Except String (String → Option InfoVal)) :
    List String → Except String (List RawProfile)
  | [] => .ok []
  | t :: ts =>
    match runWorker getInfo t with
    | .error e => .error e
    | .ok r =>
      match collectResults getInfo ts with
      | .error e => .error e
      | .ok rs => .ok (r :: rs)

/-- The pool size `min(os.cpu_count(), len(self.tickers))` of `main.py`
line 82. -/
def max_workers (cpu_count : Nat) (tickers : List String) : Nat :=
  min cpu_count tickers.length

/-- `yf_data.threaded_profiling` (`main.py` lines 73-86).  `order` is the
nondeterministic order in which the futures complete (a permutation of the
tickers).  CPython's `ThreadPoolExecutor.__init__` raises
`ValueError("max_workers must be greater than 0")` when `max_workers <= 0`,
which happens exactly when the ticker list is empty (or `cpu_count` is 0). -/
def threaded_profiling (cpu_count : Nat)
    (getInfo : String → Except String (String → Option InfoVal))
    (tickers order : List String) : Except String (List RawProfile) :=
  if max_workers cpu_count tickers = 0 then
    .error "ValueError: max_workers must be greater than 0"
  else
    collectResults getInfo order

lemma le_foldl_max (l : List Nat) (a d : Nat) (h : d ∈ l ∨ d ≤ a) : d ≤ l.foldl max a := by
  induction l generalizing a with
  | nil =>
    rcases h with h | h
    · cases h
    · exact h
  | cons b bs ih =>
    rw [List.foldl_cons]
    rcases h with h | h
    · rcases List.mem_cons.1 h with h | h
      · exact ih (max a b) (Or.inr (h ▸ le_max_right a b))
      · exact ih _ (Or.inl h)
    · exact ih _ (Or.inr (le_trans h (le_max_left a b)))

lemma hwmLookup_map_self (f : String → Nat) (l : List String) (t : String) (ht : t ∈ l) :
    hwmLookup (l.map (fun s => (s, f s))) t = some (f t) := by
  induction l with
  | nil => cases ht
  | cons a as ih =>
    rw [List.map_cons, hwmLookup]
    by_cases hat : a = t
    · rw [if_pos hat, hat]
    · rw [if_neg hat]
      rcases List.mem_cons.1 ht with h | h
      · exact absurd h.symm hat
      · exact ih h

/-- The high-water-mark table produced by `date_checker` has one row per
ticker (the SQL `GROUP BY ticker` guarantee). -/
lemma date_checker_keys_nodup (tickers : List String) (tbl : List PriceRow) :
    ((date_checker tickers tbl).map Prod.fst).Nodup := by
  unfold date_checker
  rw [List.map_map]
  have hcomp : (Prod.fst ∘ fun t => (t, (tickerDates tbl t).foldl max 0)) = id := rfl
  rw [hcomp, List.map_id]
  exact (List.nodup_dedup _).filter _

/-- Every stored row of a requested ticker is covered by `date_checker`:
the reported max date is at least the row's date. -/
lemma date_checker_lookup_ge (tickers : List String) (tbl : List PriceRow)
    (x : PriceRow) (hx : x ∈ tbl) (hmem : x.ticker ∈ tickers) :
    ∃ m, hwmLookup (date_checker tickers tbl) x.ticker = some m ∧ x.date ≤ m := by
  unfold date_checker
  have ht : x.ticker ∈ ((tbl.map PriceRow.ticker).dedup).filter
      (fun t => tickers.contains t) := by
    rw [List.mem_filter]
    exact ⟨List.mem_dedup.2 (List.mem_map_of_mem _ hx), List.elem_iff.2 hmem⟩
  refine ⟨(tickerDates tbl x.ticker).foldl max 0, hwmLookup_map_self _ _ _ ht, ?_⟩
  apply le_foldl_max
  left
  unfold tickerDates
  exact List.mem_map_of_mem _ (List.mem_filter.2 ⟨hx, by simp⟩)

/-- Whether or not any row survives, the new price table is the old one
with the filtered rows appended (appending nothing in the empty case). -/
lemma load_price_data_fst (tickers : List String) (fetched : List PriceRow) (w : Warehouse) :
    (load_price_data tickers fetched w).1 =
      { w with ticker_data :=
          w.ticker_data ++ priceFilter fetched (date_checker tickers w.ticker_data) } := by
  unfold load_price_data
  dsimp only
  split
  · rfl
  · next hlen =>
    have hlen0 : (priceFilter fetched (date_checker tickers w.ticker_data)).length = 0 := by
      omega
    simp [List.length_eq_zero.1 hlen0]

/-- The new profile table is the old one with the filtered rows appended. -/
lemma load_ticker_profiles_fst (fetched : List ProfileRow) (w : Warehouse) :
    (load_ticker_profiles fetched w).1 =
      { w with ticker_profiles :=
          w.ticker_profiles ++
            profileFilter fetched (w.ticker_profiles.map ProfileRow.ticker) } := by
  unfold load_ticker_profiles
  dsimp only
  split
  · rfl
  · next hlen =>
    have hlen0 :
        (profileFilter fetched (w.ticker_profiles.map ProfileRow.ticker)).length = 0 := by
      omega
    simp [List.length_eq_zero.1 hlen0]

/-- `load_ticker_profiles` returns exactly how many filtered rows were
appended (zero when none survive the filter). -/
lemma load_ticker_profiles_snd (fetched : List ProfileRow) (w : Warehouse) :
    (load_ticker_profiles fetched w).2 =
      (profileFilter fetched (w.ticker_profiles.map ProfileRow.ticker)).length := by
  unfold load_ticker_profiles
  dsimp only
  split
  · rfl
  · next hlen => omega

/-- A concrete price row for the ticker AAA at day `d`. -/
def sampleRow (d : Nat) : PriceRow := ⟨"AAA", d, 0, 0, 0, 0, 0, 0⟩

/-- A concrete profile row for ticker `t`. -/
def sampleProfile (t : String) : ProfileRow := ⟨t, "co", "ind", "sec", "cty", "EQUITY", none⟩

lemma profileKeep_iff (existing : List String) (r : ProfileRow) :
    profileKeep existing r = true ↔ strUpper r.ticker ∉ existing.map strUpper := by
  simp [profileKeep]

lemma rowKeep_iff (filter_df : List (String × Nat)) (r : PriceRow) :
    rowKeep filter_df r = true ↔
      (hwmLookup filter_df r.ticker = none ∨
        ∃ d, hwmLookup filter_df r.ticker = some d ∧ d < r.date) := by
  unfold rowKeep
  cases hL : hwmLookup filter_df r.ticker with
  | none => simp
  | some d => simp

/-- C1: a fetched price row survives the incremental filter iff its ticker
has no high-water mark or its date is strictly greater than the stored max
date; hence the output is a subset of the fetched rows and every excluded
fetched row has a date at most its ticker's max date. -/
theorem c1_price_filter_membership (df : List PriceRow) (filter_df : List (String × Nat))
    (h : (filter_df.map Prod.fst).Nodup) :
    (∀ r : PriceRow, r ∈ priceFilter df filter_df ↔
        r ∈ df ∧ (hwmLookup filter_df r.ticker = none ∨
          ∃ d, hwmLookup filter_df r.ticker = some d ∧ d < r.date))
    ∧ (∀ r ∈ priceFilter df filter_df, r ∈ df)
    ∧ (∀ r ∈ df, r ∉ priceFilter df filter_df →
        ∃ d, hwmLookup filter_df r.ticker = some d ∧ r.date ≤ d) := by
  have hmem : ∀ r : PriceRow,
      r ∈ priceFilter df filter_df ↔ r ∈ df ∧ rowKeep filter_df r = true := by
    intro r
    rw [priceFilter_eq_filter df filter_df h]
    exact List.mem_filter
  refine ⟨?_, ?_, ?_⟩
  · intro r; rw [hmem r, rowKeep_iff filter_df r]
  · intro r hr; exact ((hmem r).1 hr).1
  · intro r hr hnr
    have hk : ¬ rowKeep filter_df r = true := fun hk => hnr ((hmem r).2 ⟨hr, hk⟩)
    rw [rowKeep_iff filter_df r] at hk
    push_neg at hk
    cases hL : hwmLookup filter_df r.ticker with
    | none => exact absurd hL hk.1
    | some d =>
      refine ⟨d, rfl, ?_⟩
      have := hk.2 d hL
      omega

/-- C1 witness: with the high-water mark AAA → day 1, the fetched row
(AAA, day 2) is in the filtered output and the output is within the batch. -/
theorem c1_witness :
    sampleRow 2 ∈ priceFilter [sampleRow 2] [("AAA", 1)] :=
  ((c1_price_filter_membership [sampleRow 2] [("AAA", 1)] (by decide)).1
    (sampleRow 2)).2 ⟨by decide, Or.inr ⟨1, rfl, by decide⟩⟩

/-- C2: the profile filter keeps exactly the fetched rows whose upper-cased
ticker differs from every upper-cased existing ticker; the output is
case-insensitively disjoint from the existing set, and an existing "aaa"
excludes a fetched "AAA". -/
theorem c2_profile_filter (df : List ProfileRow) (existing : List String) :
    (∀ r : ProfileRow, r ∈ profileFilter df existing ↔
        r ∈ df ∧ ∀ e ∈ existing, strUpper r.ticker ≠ strUpper e)
    ∧ (∀ r ∈ profileFilter df existing, ∀ e ∈ existing, strUpper r.ticker ≠ strUpper e)
    ∧ (∀ r ∈ df, "aaa" ∈ existing → r.ticker = "AAA" →
        r ∉ profileFilter df existing) := by
  have hkeep : ∀ r : ProfileRow, profileKeep existing r = true ↔
      ∀ e ∈ existing, strUpper r.ticker ≠ strUpper e := by
    intro r
    rw [profileKeep_iff]
    constructor
    · intro hnm e he heq
      exact hnm (List.mem_map.2 ⟨e, he, heq.symm⟩)
    · intro hall hmem
      obtain ⟨e, he, heq⟩ := List.mem_map.1 hmem
      exact hall e he heq.symm
  have hmem : ∀ r : ProfileRow,
      r ∈ profileFilter df existing ↔ r ∈ df ∧ profileKeep existing r = true := by
    intro r; exact List.mem_filter
  refine ⟨?_, ?_, ?_⟩
  · intro r; rw [hmem r, hkeep r]
  · intro r hr; exact (hkeep r).1 ((hmem r).1 hr).2
  · intro r hr haaa hAAA hcontra
    have := (hkeep r).1 ((hmem r).1 hcontra).2 "aaa" haaa
    rw [hAAA] at this
    exact this (by decide)

/-- C2 witness (spec §8 scenario): existing profile tickers {"aaa"} and a
fetched profile with ticker "AAA" → the fetched row is filtered out. -/
theorem c2_witness :
    sampleProfile "AAA" ∉ profileFilter [sampleProfile "AAA"] ["aaa"] :=
  (c2_profile_filter [sampleProfile "AAA"] ["aaa"]).2.2 (sampleProfile "AAA")
    (List.mem_singleton.2 rfl) (List.mem_singleton.2 rfl) rfl

/-- C7: the incremental price filter is idempotent — filtering its own
output against the same high-water marks changes nothing.  (The embedding
is a pure function of its arguments, so the filter cannot mutate the
fetched table or the high-water marks; the `inplace` drop in the source
acts on the freshly merged frame, not on either input.) -/
theorem c7_price_filter_idempotent (df : List PriceRow) (filter_df : List (String × Nat))
    (h : (filter_df.map Prod.fst).Nodup) :
    priceFilter (priceFilter df filter_df) filter_df = priceFilter df filter_df := by
  rw [priceFilter_eq_filter df filter_df h,
    priceFilter_eq_filter (df.filter (rowKeep filter_df)) filter_df h,
    List.filter_filter (rowKeep filter_df) df]
  simp

/-- C7 witness: idempotence at a concrete batch and mark table. -/
theorem c7_witness :
    priceFilter (priceFilter [sampleRow 1, sampleRow 2] [("AAA", 1)]) [("AAA", 1)] =
      priceFilter [sampleRow 1, sampleRow 2] [("AAA", 1)] :=
  c7_price_filter_idempotent [sampleRow 1, sampleRow 2] [("AAA", 1)] (by decide)

/-- C8 counterexample: the column dropped before load is MAX_DATE, not the
join key.  The loaded table still carries the TICKER (join key) column:
the filter's output exposes the ticker of the loaded row, and
`load_price_data` itself groups the loaded rows by TICKER after the drop. -/
theorem c8_counterexample :
    (priceFilter [sampleRow 1] []).map PriceRow.ticker = ["AAA"]
    ∧ (load_price_data ["AAA"] [sampleRow 1] ⟨[], []⟩).2 = some [("AAA", 1)] := by
  exact ⟨rfl, by decide⟩

/-- C8 (amended): the filter is a left join on TICKER, then the predicate
filter, then dropping the MAX_DATE column brought in by the join — under
unique high-water marks this staged pipeline equals the direct per-row
contract filter, and every loaded row is a fetched row (TICKER retained). -/
theorem c8_staged_pipeline (df : List PriceRow) (filter_df : List (String × Nat))
    (h : (filter_df.map Prod.fst).Nodup) :
    priceFilter df filter_df = priceFilterSpec df filter_df
    ∧ (∀ r ∈ priceFilter df filter_df, r ∈ df) := by
  refine ⟨priceFilter_eq_filter df filter_df h, ?_⟩
  intro r hr
  rw [priceFilter_eq_filter df filter_df h] at hr
  exact (List.mem_filter.1 hr).1

/-- C8 witness: the staged pipeline agrees with the contract filter at a
concrete input. -/
theorem c8_witness :
    priceFilter [sampleRow 1] [("AAA", 1)] = priceFilterSpec [sampleRow 1] [("AAA", 1)] :=
  (c8_staged_pipeline [sampleRow 1] [("AAA", 1)] (by decide)).1

/-- C10: the incremental filters compare fetched rows only against the
warehouse snapshot, never against each other: a row whose ticker has no
high-water mark keeps its full multiplicity in the filtered price output,
and a profile row whose ticker is new keeps its full multiplicity too. -/
theorem c10_within_batch_duplicates (df : List PriceRow) (filter_df : List (String × Nat))
    (r : PriceRow) (pf : List ProfileRow) (existing : List String) (p : ProfileRow)
    (h : (filter_df.map Prod.fst).Nodup) :
    (hwmLookup filter_df r.ticker = none →
      (priceFilter df filter_df).count r = df.count r)
    ∧ (profileKeep existing p = true →
      (profileFilter pf existing).count p = pf.count p) := by
  constructor
  · intro hnone
    rw [priceFilter_eq_filter df filter_df h]
    exact List.count_filter (by rw [rowKeep_iff]; exact Or.inl hnone)
  · intro hkeep
    exact List.count_filter hkeep

/-- C10 witness: a batch holding (AAA, day 1) twice with no high-water mark
for AAA keeps both copies, and likewise two profile rows for a new ticker. -/
theorem c10_witness :
    (priceFilter [sampleRow 1, sampleRow 1] []).count (sampleRow 1) =
        ([sampleRow 1, sampleRow 1] : List PriceRow).count (sampleRow 1)
    ∧ (profileFilter [sampleProfile "AAA", sampleProfile "AAA"] []).count
          (sampleProfile "AAA") =
        ([sampleProfile "AAA", sampleProfile "AAA"] : List ProfileRow).count
          (sampleProfile "AAA") :=
  ⟨(c10_within_batch_duplicates [sampleRow 1, sampleRow 1] [] (sampleRow 1)
      [sampleProfile "AAA", sampleProfile "AAA"] [] (sampleProfile "AAA")
      (by decide)).1 rfl,
   (c10_within_batch_duplicates [sampleRow 1, sampleRow 1] [] (sampleRow 1)
      [sampleProfile "AAA", sampleProfile "AAA"] [] (sampleProfile "AAA")
      (by decide)).2 (by decide)⟩

/-- C3 counterexample: the filters never compare fetched rows against each
other, so a fetched batch that repeats (AAA, day 1) — with no stored
high-water mark for AAA — gets both copies appended, and the loaded price
table then holds the same (ticker, date) pair twice. -/
theorem c3_counterexample :
    ¬ (((load_price_data ["AAA"] [sampleRow 1, sampleRow 1]
        ⟨[], []⟩).1.ticker_data.map priceKey).Nodup) := by decide

/-- C3 (amended): provided the fetched batches are themselves free of
duplicates — no repeated (ticker, date) pair among the fetched prices, all
fetched tickers among the requested ones, and no case-insensitively
repeated ticker among the fetched profiles — a run never loads a
(ticker, date) pair or a profile ticker twice, and both loads only append:
the previous table contents stay as an unchanged prefix. -/
theorem c3_append_only_no_duplicates (tickers : List String) (fetched : List PriceRow)
    (pfetched : List ProfileRow) (w : Warehouse)
    (h1 : (w.ticker_data.map priceKey).Nodup)
    (h2 : (fetched.map priceKey).Nodup)
    (h3 : ∀ r ∈ fetched, r.ticker ∈ tickers)
    (h4 : (w.ticker_profiles.map (fun p => strUpper p.ticker)).Nodup)
    (h5 : (pfetched.map (fun p => strUpper p.ticker)).Nodup) :
    ((load_price_data tickers fetched w).1.ticker_data.map priceKey).Nodup
    ∧ (((load_ticker_profiles pfetched
          (load_price_data tickers fetched w).1).1.ticker_profiles.map
            (fun p => strUpper p.ticker)).Nodup)
    ∧ (∃ a, (load_price_data tickers fetched w).1.ticker_data = w.ticker_data ++ a)
    ∧ (∃ b, (load_ticker_profiles pfetched
          (load_price_data tickers fetched w).1).1.ticker_profiles =
            w.ticker_profiles ++ b)
    ∧ (load_ticker_profiles pfetched
        (load_price_data tickers fetched w).1).1.ticker_data =
          (load_price_data tickers fetched w).1.ticker_data
    ∧ (load_price_data tickers fetched w).1.ticker_profiles = w.ticker_profiles := by
  rw [load_ticker_profiles_fst, load_price_data_fst]
  dsimp only
  have hMnodup := date_checker_keys_nodup tickers w.ticker_data
  have hfilter : priceFilter fetched (date_checker tickers w.ticker_data) =
      fetched.filter (rowKeep (date_checker tickers w.ticker_data)) :=
    priceFilter_eq_filter fetched _ hMnodup
  refine ⟨?_, ?_, ⟨_, rfl⟩, ⟨_, rfl⟩, rfl, rfl⟩
  · rw [List.map_append, List.nodup_append]
    refine ⟨h1, ?_, ?_⟩
    · rw [hfilter]
      exact List.Nodup.sublist ((List.filter_sublist _).map priceKey) h2
    · intro a ha hamem
      obtain ⟨x, hx, hxa⟩ := List.mem_map.1 ha
      obtain ⟨y, hy, hya⟩ := List.mem_map.1 hamem
      rw [hfilter] at hy
      have hyf := (List.mem_filter.1 hy).1
      have hyk := (List.mem_filter.1 hy).2
      have hkeys : x.ticker = y.ticker ∧ x.date = y.date := by
        have hxy : priceKey x = priceKey y := hxa.trans hya.symm
        unfold priceKey at hxy
        exact ⟨congrArg Prod.fst hxy, congrArg Prod.snd hxy⟩
      obtain ⟨m, hm, hxm⟩ := date_checker_lookup_ge tickers w.ticker_data x hx
        (hkeys.1.symm ▸ h3 y hyf)
      rw [rowKeep_iff] at hyk
      rcases hyk with hnone | ⟨d, hd, hdlt⟩
      · rw [← hkeys.1] at hnone
        rw [hnone] at hm
        cases hm
      · have hd' : hwmLookup (date_checker tickers w.ticker_data) x.ticker = some d := by
          rw [hkeys.1]; exact hd
        have hmd : m = d := by
          have := hm.symm.trans hd'
          injection this
        have hdate : x.date = y.date := hkeys.2
        omega
  · rw [List.map_append, List.nodup_append]
    refine ⟨h4, ?_, ?_⟩
    · exact List.Nodup.sublist ((List.filter_sublist _).map _) h5
    · intro a ha hamem
      obtain ⟨y, hy, hya⟩ := List.mem_map.1 hamem
      have hyk := (List.mem_filter.1 hy).2
      rw [profileKeep_iff] at hyk
      apply hyk
      rw [List.map_map]
      exact hya.symm ▸ ha

/-- C3 witness: a clean single-row batch on an empty warehouse loads
without creating any duplicate (ticker, date) pair. -/
theorem c3_witness :
    ((load_price_data ["AAA"] [sampleRow 1] ⟨[], []⟩).1.ticker_data.map priceKey).Nodup :=
  (c3_append_only_no_duplicates ["AAA"] [sampleRow 1] [sampleProfile "AAA"] ⟨[], []⟩
    (by decide) (by decide) (by decide) (by decide) (by decide)).1

/-- C5: when the incremental filter output is empty, neither loader touches
the warehouse, the price stage returns `None` (printing an informational
message, not raising), the profile stage returns 0, and in general the
profile stage returns exactly the number of newly inserted rows. -/
theorem c5_empty_filter_is_no_op (tickers : List String) (fetched : List PriceRow)
    (pfetched : List ProfileRow) (w : Warehouse)
    (hp : priceFilter fetched (date_checker tickers w.ticker_data) = [])
    (hq : profileFilter pfetched (w.ticker_profiles.map ProfileRow.ticker) = []) :
    load_price_data tickers fetched w = (w, none)
    ∧ load_ticker_profiles pfetched w = (w, 0)
    ∧ ∀ (pf : List ProfileRow) (w2 : Warehouse),
        (load_ticker_profiles pf w2).2 =
          (profileFilter pf (w2.ticker_profiles.map ProfileRow.ticker)).length := by
  refine ⟨?_, ?_, fun pf w2 => load_ticker_profiles_snd pf w2⟩
  · unfold load_price_data
    dsimp only
    rw [hp]
    simp
  · unfold load_ticker_profiles
    dsimp only
    rw [hq]
    simp

/-- C5 witness: a fetched price row at or before the stored max date and an
already-profiled ticker leave the warehouse untouched, with `None` and 0
reported. -/
theorem c5_witness :
    load_price_data ["AAA"] [sampleRow 1] ⟨[sampleRow 5], [sampleProfile "AAA"]⟩ =
      (⟨[sampleRow 5], [sampleProfile "AAA"]⟩, none)
    ∧ load_ticker_profiles [sampleProfile "AAA"] ⟨[sampleRow 5], [sampleProfile "AAA"]⟩ =
      (⟨[sampleRow 5], [sampleProfile "AAA"]⟩, 0) := by
  have h := c5_empty_filter_is_no_op ["AAA"] [sampleRow 1] [sampleProfile "AAA"]
    ⟨[sampleRow 5], [sampleProfile "AAA"]⟩ (by decide) (by decide)
  exact ⟨h.1, h.2.1⟩

/-- A stub provider whose metadata lookups all succeed with an empty dict. -/
def noInfo : String → Except String (String → Option InfoVal) :=
  fun _ => .ok (fun _ => none)

/-- C4 counterexample: for ticker count 0 the collector does not return an
empty result — `ThreadPoolExecutor(max_workers=min(os.cpu_count(), 0))`
raises `ValueError` before any work is done. -/
theorem c4_counterexample :
    threaded_profiling 4 noInfo [] [] =
      .error "ValueError: max_workers must be greater than 0" := rfl

/-- C4 (amended): for ticker count ≥ 1 (and at least one CPU) the pool size
is exactly `min(cpu_count, ticker_count)` — at least 1, never more than the
hardware hint, never more than the ticker count — and the collector runs
the gather loop; for ticker count 0 the pool constructor raises ValueError
instead of returning an empty result. -/
theorem c4_pool_size (cpu : Nat) (tickers : List String)
    (getInfo : String → Except String (String → Option InfoVal)) (order : List String)
    (h1 : 1 ≤ tickers.length) (h2 : 1 ≤ cpu) :
    max_workers cpu tickers = min cpu tickers.length
    ∧ 1 ≤ max_workers cpu tickers
    ∧ max_workers cpu tickers ≤ cpu
    ∧ max_workers cpu tickers ≤ tickers.length
    ∧ threaded_profiling cpu getInfo tickers order = collectResults getInfo order
    ∧ threaded_profiling cpu getInfo [] order =
        .error "ValueError: max_workers must be greater than 0" := by
  have hone : 1 ≤ min cpu tickers.length := Nat.le_min.2 ⟨h2, h1⟩
  refine ⟨rfl, hone, Nat.min_le_left _ _, Nat.min_le_right _ _, ?_, ?_⟩
  · unfold threaded_profiling max_workers
    rw [if_neg (by omega)]
  · simp [threaded_profiling, max_workers]

/-- C4 witness: one ticker and four CPUs — the guard passes and the
collector reaches the gather loop. -/
theorem c4_witness :
    threaded_profiling 4 noInfo ["AAA"] ["AAA"] = collectResults noInfo ["AAA"] :=
  (c4_pool_size 4 ["AAA"] noInfo ["AAA"] (by decide) (by decide)).2.2.2.2.1

/-- C6: when a worker's profile lookup fails, the whole profile stage fails:
the first failing future in completion order has its exception re-raised by
the collector, the results gathered so far are discarded, and no `.ok`
partial result is ever returned. -/
theorem c6_failure_propagates (cpu : Nat)
    (getInfo : String → Except String (String → Option InfoVal))
    (tickers pre post : List String) (t : String) (e : String)
    (hperm : (pre ++ t :: post).Perm tickers)
    (hcpu : 1 ≤ cpu)
    (hpre : ∀ u ∈ pre, ∃ p, runWorker getInfo u = .ok p)
    (hfail : runWorker getInfo t = .error e) :
    threaded_profiling cpu getInfo tickers (pre ++ t :: post) = .error e
    ∧ t ∈ tickers
    ∧ ∀ rs, threaded_profiling cpu getInfo tickers (pre ++ t :: post) ≠ .ok rs := by
  have hcollect : ∀ (l : List String), (∀ u ∈ l, ∃ p, runWorker getInfo u = .ok p) →
      collectResults getInfo (l ++ t :: post) = .error e := by
    intro l
    induction l with
    | nil =>
      intro _
      rw [List.nil_append]
      show collectResults getInfo (t :: post) = .error e
      unfold collectResults
      rw [hfail]
    | cons u us ih =>
      intro hl
      obtain ⟨p, hp⟩ := hl u (List.mem_cons_self u us)
      rw [List.cons_append]
      show collectResults getInfo (u :: (us ++ t :: post)) = .error e
      unfold collectResults
      rw [hp, ih (fun v hv => hl v (List.mem_cons_of_mem u hv))]
  have hlen : tickers.length = pre.length + (post.length + 1) := by
    rw [← hperm.length_eq]
    simp [List.length_append]
  have hguard : ¬ (max_workers cpu tickers = 0) := by
    unfold max_workers
    have hone : 1 ≤ min cpu tickers.length := Nat.le_min.2 ⟨hcpu, by omega⟩
    omega
  have hmain : threaded_profiling cpu getInfo tickers (pre ++ t :: post) = .error e := by
    unfold threaded_profiling
    rw [if_neg hguard]
    exact hcollect pre hpre
  refine ⟨hmain, ?_, ?_⟩
  · exact hperm.subset (List.mem_append.2 (Or.inr (List.mem_cons_self t post)))
  · intro rs hcontra
    rw [hmain] at hcontra
    exact Except.noConfusion hcontra

/-- A stub provider whose lookup fails for BBB and succeeds otherwise. -/
def failInfo : String → Except String (String → Option InfoVal) :=
  fun t => if t = "BBB" then .error "boom" else .ok (fun _ => none)

/-- C6 witness: with AAA completing first and BBB's lookup failing, the
whole collector re-raises BBB's exception, discarding AAA's result. -/
theorem c6_witness :
    threaded_profiling 4 failInfo ["AAA", "BBB"] ["AAA", "BBB"] = .error "boom" :=
  (c6_failure_propagates 4 failInfo ["AAA", "BBB"] ["AAA"] [] "BBB" "boom"
    (List.Perm.refl _) (by decide)
    (by
      intro u hu
      rw [List.mem_singleton] at hu
      subst hu
      exact ⟨profile_data (fun _ => none), rfl⟩)
    rfl).1

/-- C9 counterexample: COMPANY_NAME is an omittable field, yet when the
provider omits `longName` the built record holds `None` — not the
"Unavailable" sentinel the claim prescribes for every omittable field. -/
theorem c9_counterexample :
    (profile_data (fun _ => none)).company_name = none
    ∧ (profile_data (fun _ => none)).company_name ≠ some (InfoVal.str "Unavailable") :=
  ⟨rfl, fun h => Option.noConfusion h⟩

/-- C9 (amended): INDUSTRY, SECTOR, COUNTRY and CLASS default to the
"Unavailable" sentinel when the provider omits them; MARKET_CAP defaults to
null; and TICKER and COMPANY_NAME — fetched with no default — also fall
back to null rather than "Unavailable". -/
theorem c9_profile_field_defaults (info : String → Option InfoVal) :
    (info "industry" = none →
      (profile_data info).industry = some (InfoVal.str "Unavailable"))
    ∧ (info "sector" = none →
      (profile_data info).sector = some (InfoVal.str "Unavailable"))
    ∧ (info "country" = none →
      (profile_data info).country = some (InfoVal.str "Unavailable"))
    ∧ (info "quoteType" = none →
      (profile_data info).quote_class = some (InfoVal.str "Unavailable"))
    ∧ (info "marketCap" = none → (profile_data info).market_cap = none)
    ∧ (info "symbol" = none → (profile_data info).ticker = none)
    ∧ (info "longName" = none → (profile_data info).company_name = none) := by
  refine ⟨fun h => ?_, fun h => ?_, fun h => ?_, fun h => ?_, fun h => ?_,
    fun h => ?_, fun h => ?_⟩
  all_goals simp [profile_data, dictGet, h]

/-- C9 witness: an entirely empty provider dict yields the sentinel for
INDUSTRY, null for MARKET_CAP and null for COMPANY_NAME. -/
theorem c9_witness :
    (profile_data (fun _ => none)).industry = some (InfoVal.str "Unavailable")
    ∧ (profile_data (fun _ => none)).market_cap = none
    ∧ (profile_data (fun _ => none)).company_name = none :=
  ⟨(c9_profile_field_defaults (fun _ => none)).1 rfl,
   (c9_profile_field_defaults (fun _ => none)).2.2.2.2.1 rfl,
   (c9_profile_field_defaults (fun _ => none)).2.2.2.2.2.2 rfl⟩

end StocksDbt
